import Mathlib

/-!
Verification of the userspace L3 router (`router_l3.py`).

A shallow embedding of the forwarding core of `l3_switch/router_l3.py`:
the longest-prefix-match routing table, the ARP cache and resolution,
the loop guard, the packet rebuild (TTL decrement, checksum recomputation),
flow accounting, and the ICMP Time-Exceeded generator.

Modelling conventions:
* IPv4 addresses and MAC addresses are naturals (`< 2^32` resp. `< 2^48`);
  the dotted-string representation of the Python code is irrelevant to the
  verified properties.  The netmask of a `RouteEntry` is modelled by the
  prefix length it denotes plus its spelling (`ip_network` accepts both a
  dotted quad and a plain prefix length, and `add_route`/`del_route`
  compare netmasks as raw strings, so the spelling is observable there).
* Wall-clock time is a rational passed explicitly into every operation
  that consults a TTL cache; `cachetools.TTLCache` membership "entry
  inserted at t is live at now" is modelled as `now < t + ttl`.
* The ARP wire exchange performed by `srp1` is an oracle
  `net : String → ℕ → Option ℕ` mapping (interface name, target IP) to
  the MAC of the reply, `none` on timeout.
* Python's stable `list.sort` is modelled by `List.insertionSort`, which
  inserts an element before the run of elements it ties with, hence is
  stable for a total preorder.
* The Internet checksum operates on 16-bit big-endian words; packets are
  modelled at word granularity (scapy's `checksum` pads an odd trailing
  byte with zero, so a word list loses no generality for the checksum
  claims).
-/

/-! ## The Internet checksum (scapy `checksum`, as invoked by the rebuild)

scapy computes `s = Σ words; s = (s >> 16) + (s & 0xffff); s += s >> 16;
return ~s & 0xffff`.  On naturals `s >> 16 = s / 65536`,
`s & 0xffff = s % 65536` and `~s & 0xffff = 65535 - s % 65536`. -/

/-- The two carry-folding steps of the Internet checksum. -/
def foldc (S : ℕ) : ℕ :=
  (S / 65536 + S % 65536) + (S / 65536 + S % 65536) / 65536

/-- Internet checksum of a word sum: fold the carries, then complement. -/
def csum (S : ℕ) : ℕ := 65535 - foldc S % 65536

/-! ## Routing table (`RouteEntry`, `_sort_routes`, `add_route`,
`del_route`, `lookup`) -/

/-- A static route (`RouteEntry` dataclass).  `network` may carry host
bits (the code stores the string as given and masks only inside
`net()`).  The netmask string is modelled by the pair
(`masklen`, `dotted`): `masklen` is the prefix length it denotes —
`ip_network` accepts both a dotted quad `"255.255.255.0"` and a plain
length `"24"` — and `dotted` records which of the two spellings was
supplied.  `net()`-based routing (matching, sorting) depends only on
`masklen`, while `add_route`/`del_route` compare the netmask as a raw
string, i.e. the full pair.  `next_hop = 0` (the code's `"0.0.0.0"`)
means on-link. -/
structure RouteEntry where
  network : ℕ
  masklen : ℕ
  dotted : Bool
  next_hop : ℕ
  interface : String
  metric : ℕ
deriving DecidableEq

/-- Destination membership in the route's network
(`ipdst in r.net()`): the top `masklen` bits agree. -/
def routeMatches (dst : ℕ) (r : RouteEntry) : Bool :=
  dst / 2 ^ (32 - r.masklen) == r.network / 2 ^ (32 - r.masklen)

/-- The order established by `_sort_routes`: Python sorts by key
`(prefixlen, -metric)` with `reverse=True`, i.e. descending prefix
length, then ascending metric.  `routeLE a b` holds when `a` may be
placed before `b`. -/
def routeLE (a b : RouteEntry) : Prop :=
  b.masklen < a.masklen ∨ (a.masklen = b.masklen ∧ a.metric ≤ b.metric)

instance : DecidableRel routeLE := fun a b => by
  unfold routeLE; infer_instance

instance : IsTotal RouteEntry routeLE :=
  ⟨by intro a b; unfold routeLE; omega⟩

instance : IsTrans RouteEntry routeLE :=
  ⟨by intro a b c; unfold routeLE; omega⟩

/-- `_sort_routes`: the stable sort of the table by the key above. -/
def sortRoutes (rs : List RouteEntry) : List RouteEntry :=
  List.insertionSort routeLE rs

/-- `lookup`: first match in the (sorted) table. -/
def lookup (routes : List RouteEntry) (dst : ℕ) : Option RouteEntry :=
  routes.find? (routeMatches dst)

/-- `a` is a strictly preferred route over `b`:
longer prefix, or equal prefix and strictly smaller metric. -/
def routeBetter (a b : RouteEntry) : Prop :=
  b.masklen < a.masklen ∨ (a.masklen = b.masklen ∧ a.metric < b.metric)

instance : DecidableRel routeBetter := fun a b => by
  unfold routeBetter; infer_instance

/-- Combining step of the specification-side route choice: `x` (earlier
in insertion order) beats the best later candidate unless that candidate
is strictly better. -/
def combineBest (p : RouteEntry → Bool) (x : RouteEntry) :
    Option RouteEntry → Option RouteEntry
  | none => if p x then some x else none
  | some y => if p x then (if routeBetter y x then some y else some x) else some y

/-- Modelled from the spec: the route the specification promises —
among entries matching `dst`, the one with the strictly longest prefix,
then the lowest metric, then the earliest-inserted; `none` when nothing
matches.  Stated over the table in insertion order. -/
def bestRouteSpec (dst : ℕ) : List RouteEntry → Option RouteEntry
  | [] => none
  | x :: xs => combineBest (routeMatches dst) x (bestRouteSpec dst xs)

/-! ## Route mutation (`add_route`, `del_route`) -/

/-- The identity `add_route` replaces on: the raw (network, netmask)
field pair, the netmask compared as the string supplied (denotation and
spelling). -/
def routeKey (r : RouteEntry) : ℕ × ℕ × Bool :=
  (r.network, r.masklen, r.dotted)

/-- The scan of `add_route`: replace the first entry with the same
(network, netmask) pair, else append at the end. -/
def replaceOrAppend : List RouteEntry → RouteEntry → List RouteEntry
  | [], r => [r]
  | c :: cs, r =>
    if routeKey c = routeKey r then r :: cs else c :: replaceOrAppend cs r

/-- `add_route`: replace-or-append, then `_sort_routes`. -/
def addRoute (rs : List RouteEntry) (r : RouteEntry) : List RouteEntry :=
  sortRoutes (replaceOrAppend rs r)

/-- `del_route`: keep every entry whose raw (network, netmask) pair
differs (again a raw string comparison on the netmask). -/
def delRoute (rs : List RouteEntry) (network masklen : ℕ) (dotted : Bool) :
    List RouteEntry :=
  rs.filter (fun r =>
    ¬(r.network = network ∧ r.masklen = masklen ∧ r.dotted = dotted))

/-- A control-plane routing-table mutation. -/
inductive RouteOp
  | add (r : RouteEntry)
  | del (network masklen : ℕ) (dotted : Bool)

def applyOp (rs : List RouteEntry) : RouteOp → List RouteEntry
  | .add r => addRoute rs r
  | .del network masklen dotted => delRoute rs network masklen dotted

def applyOps (rs : List RouteEntry) (ops : List RouteOp) : List RouteEntry :=
  ops.foldl applyOp rs

/-- No two entries share a raw (network, netmask) pair. -/
def keysNodup (rs : List RouteEntry) : Prop := (rs.map routeKey).Nodup

instance (rs : List RouteEntry) : Decidable (keysNodup rs) := by
  unfold keysNodup; infer_instance

/-- Substituting the new route for the old entry with its key. -/
def substRoute (r : RouteEntry) (c : RouteEntry) : RouteEntry :=
  if routeKey c = routeKey r then r else c

/-! ## Packets

An IPv4 packet at 16-bit word granularity.  The header fields are those
the rebuild reads (`version, ihl, tos, id, flags, frag, ttl, proto, src,
dst`) plus the as-received `len` and `chksum` (used only when the
original wire bytes are needed, e.g. for the ICMP Time-Exceeded
payload).  The upper layer mirrors the `haslayer` dispatch of the code:
exactly one of ICMP / TCP / UDP / Raw / nothing. -/

inductive UpperLayer
  /-- No payload beyond the IP header. -/
  | none
  /-- A raw payload (its 16-bit words), copied verbatim by the rebuild. -/
  | raw (ws : List ℕ)
  /-- ICMP: the type/code word, the checksum, the remaining words. -/
  | icmp (tc ck : ℕ) (rest : List ℕ)
  /-- TCP: ports, the five words between ports and checksum
  (seq, ack, offset/flags, window), the checksum, the rest. -/
  | tcp (sport dport : ℕ) (mid : List ℕ) (ck : ℕ) (post : List ℕ)
  /-- UDP: ports, length, checksum, payload words. -/
  | udp (sport dport ulen ck : ℕ) (payload : List ℕ)
deriving DecidableEq

structure Packet where
  version : ℕ
  ihl : ℕ
  tos : ℕ
  len : ℕ
  id : ℕ
  flags : ℕ
  frag : ℕ
  ttl : ℕ
  proto : ℕ
  chksum : ℕ
  src : ℕ
  dst : ℕ
  upper : UpperLayer
deriving DecidableEq

def UpperLayer.isIcmp : UpperLayer → Bool
  | .icmp _ _ _ => true
  | _ => false

def UpperLayer.isTcp : UpperLayer → Bool
  | .tcp _ _ _ _ _ => true
  | _ => false

def UpperLayer.isUdp : UpperLayer → Bool
  | .udp _ _ _ _ _ => true
  | _ => false

/-- The 16-bit words of the upper layer as they appear on the wire. -/
def upperWords : UpperLayer → List ℕ
  | .none => []
  | .raw ws => ws
  | .icmp tc ck rest => tc :: ck :: rest
  | .tcp sport dport mid ck post => sport :: dport :: (mid ++ ck :: post)
  | .udp sport dport ulen ck payload => sport :: dport :: ulen :: ck :: payload

/-- Byte length of the upper layer (scapy recomputes `IP.len` from it). -/
def upperByteLen (u : UpperLayer) : ℕ := 2 * (upperWords u).length

/-- The ten 16-bit words of the (option-less) IP header. -/
def headerWords (p : Packet) : List ℕ :=
  [p.version * 4096 + p.ihl * 256 + p.tos, p.len, p.id,
   p.flags * 8192 + p.frag, p.ttl * 256 + p.proto, p.chksum,
   p.src / 65536, p.src % 65536, p.dst / 65536, p.dst % 65536]

/-- The whole packet as 16-bit words, as received on the wire. -/
def wireWords (p : Packet) : List ℕ := headerWords p ++ upperWords p.upper

/-- Big-endian bytes of a word list. -/
def wordsToBytes : List ℕ → List ℕ
  | [] => []
  | w :: ws => w / 256 % 256 :: w % 256 :: wordsToBytes ws

/-- The packet's wire bytes. -/
def wireBytes (p : Packet) : List ℕ := wordsToBytes (wireWords p)

/-- TCP/UDP pseudo-header contribution to the checksum sum:
source and destination address words, the protocol number, and the
upper-layer byte length. -/
def pseudoSum (src dst proto l4len : ℕ) : ℕ :=
  src / 65536 + src % 65536 + dst / 65536 + dst % 65536 + proto + l4len

/-- The checksum-relevant word sum of the rebuilt upper layer with its
checksum field cleared (scapy recomputes over exactly this). -/
def upperSum0 (src dst : ℕ) : UpperLayer → ℕ
  | .none => 0
  | .raw _ => 0
  | .icmp tc _ rest => tc + rest.sum
  | .tcp sport dport mid _ post =>
      pseudoSum src dst 6 (2 * (3 + mid.length + post.length))
        + sport + dport + mid.sum + post.sum
  | .udp sport dport _ _ payload =>
      pseudoSum src dst 17 (8 + 2 * payload.length)
        + sport + dport + (8 + 2 * payload.length) + payload.sum

/-- The rebuild of the upper layer (`ICMP(bytes(...))` with
`chksum = None`, etc.): fields are re-parsed from the original wire
bytes, the checksum is cleared and recomputed; `UDP.len` is recomputed
and a computed checksum of zero is transmitted as `0xffff`. -/
def rebuildUpper (src dst : ℕ) : UpperLayer → UpperLayer
  | .none => .none
  | .raw ws => .raw ws
  | .icmp tc ck rest => .icmp tc (csum (upperSum0 src dst (.icmp tc ck rest))) rest
  | .tcp sport dport mid ck post =>
      .tcp sport dport mid (csum (upperSum0 src dst (.tcp sport dport mid ck post))) post
  | .udp sport dport ulen ck payload =>
      let c := csum (upperSum0 src dst (.udp sport dport ulen ck payload))
      .udp sport dport (8 + 2 * payload.length) (if c = 0 then 65535 else c) payload

/-- The rebuilt IP packet (`new_ip` in `forward`): the header fields are
copied, TTL is `max(1, ttl - 1)`, `len` and `chksum` are cleared and
recomputed by scapy over the new header (checksum slot zero), and the
upper layer is rebuilt from the original wire bytes. -/
def rebuildIP (p : Packet) : Packet :=
  let u := rebuildUpper p.src p.dst p.upper
  let base : Packet :=
    { p with ttl := max 1 (p.ttl - 1), len := 20 + upperByteLen u,
             chksum := 0, upper := u }
  { base with chksum := csum (headerWords base).sum }

/-- Well-formedness of a packet as received: every field within its
bit-width, words 16-bit, and a bounded payload (any real IPv4 packet has
at most 65535 bytes; the bound 32740 words is what the checksum
overflow argument needs). -/
def Packet.WF (p : Packet) : Prop :=
  p.version < 16 ∧ p.ihl < 16 ∧ p.tos < 256 ∧ p.len < 65536 ∧ p.id < 65536 ∧
  p.flags < 8 ∧ p.frag < 8192 ∧ p.ttl < 256 ∧ p.proto < 256 ∧
  p.chksum < 65536 ∧ p.src < 4294967296 ∧ p.dst < 4294967296 ∧
  (∀ w ∈ upperWords p.upper, w < 65536) ∧ (upperWords p.upper).length ≤ 32740

instance (p : Packet) : Decidable p.WF := by
  unfold Packet.WF; infer_instance

/-! ## Router state (`L3Router.__init__`) -/

/-- `IfaceInfo` dataclass. -/
structure IfaceInfo where
  name : String
  ip : ℕ
  mac : ℕ
  enabled : Bool
deriving DecidableEq

/-- The `self.stats` dictionary: exactly the eleven counters the code
initialises.  (There is no counter named `iface_missing`,
`iface_disabled` or `arp_unresolved`.) -/
structure Stats where
  rx_packets : ℕ
  tx_packets : ℕ
  dropped_packets : ℕ
  icmp_packets : ℕ
  tcp_packets : ℕ
  udp_packets : ℕ
  no_route : ℕ
  ttl_expired : ℕ
  arp_miss : ℕ
  arp_sent : ℕ
  loop_suppressed : ℕ
deriving DecidableEq

/-- The `self.settings` dictionary. -/
structure Settings where
  only_inbound_sniff : Bool
  send_icmp_time_exceeded : Bool
  split_horizon : Bool
deriving DecidableEq

/-- One ARP-cache entry (`TTLCache` with ttl = 60): value plus insertion
time. -/
structure ArpEntry where
  ip : ℕ
  mac : ℕ
  t : ℚ
deriving DecidableEq

/-- One loop-guard signature (`(src, dst, proto, id, in_if, out_if)`). -/
structure LoopSig where
  src : ℕ
  dst : ℕ
  proto : ℕ
  ipid : ℕ
  inIf : String
  outIf : String
deriving DecidableEq

/-- One loop-guard entry (`TTLCache` with ttl = 1.0). -/
structure GuardEntry where
  sig : LoopSig
  t : ℚ
deriving DecidableEq

/-- A flow key: the 5-tuple. -/
structure FlowKey where
  src : ℕ
  dst : ℕ
  proto : ℕ
  sport : ℕ
  dport : ℕ
deriving DecidableEq

/-- Flow statistics (`{"pkts", "bytes", "first", "last", "in_if"}`). -/
structure FlowStats where
  pkts : ℕ
  bytes : ℕ
  first : ℚ
  last : ℚ
  in_if : String
deriving DecidableEq

/-- The mutable state of `L3Router` relevant to forwarding. -/
structure RouterState where
  ifaces : List IfaceInfo
  routes : List RouteEntry
  arpCache : List ArpEntry
  loopGuard : List GuardEntry
  flows : List (FlowKey × FlowStats)
  stats : Stats
  settings : Settings
deriving DecidableEq

/-- Dictionary lookup `self.ifaces[name]`. -/
def findIface (l : List IfaceInfo) (n : String) : Option IfaceInfo :=
  l.find? (fun i => i.name == n)

/-- `target_ip in self.arp_cache` / `self.arp_cache[target_ip]`:
the first live entry (inserted less than 60 s ago). -/
def arpLookup (c : List ArpEntry) (ip : ℕ) (now : ℚ) : Option ℕ :=
  (c.find? (fun e => e.ip == ip && decide (now < e.t + 60))).map (·.mac)

/-- `self.arp_cache[target_ip] = mac`: replace any entry for that IP. -/
def arpInsert (c : List ArpEntry) (ip mac : ℕ) (now : ℚ) : List ArpEntry :=
  ⟨ip, mac, now⟩ :: c.filter (fun e => e.ip ≠ ip)

/-- `sig in self.loop_guard`: a live entry (inserted less than 1 s ago)
carries this signature. -/
def sigLive (g : List GuardEntry) (sig : LoopSig) (now : ℚ) : Bool :=
  g.any (fun e => e.sig == sig && decide (now < e.t + 1))

/-- `self.loop_guard[sig] = time.time()`. -/
def guardInsert (g : List GuardEntry) (sig : LoopSig) (now : ℚ) : List GuardEntry :=
  ⟨sig, now⟩ :: g.filter (fun e => e.sig ≠ sig)

/-- `arp_resolve`: cache hit answers immediately; otherwise a request is
broadcast (`arp_miss`/`arp_sent` grow — reported by the `Bool`) and the
oracle's reply, if any, is learned into the cache.  Returns
(answer, new cache, whether a request went out). -/
def arpResolve (net : String → ℕ → Option ℕ) (now : ℚ) (cache : List ArpEntry)
    (oif : IfaceInfo) (target : ℕ) : Option ℕ × List ArpEntry × Bool :=
  match arpLookup cache target now with
  | some mac => (some mac, cache, false)
  | none =>
    match net oif.name target with
    | some mac => (some mac, arpInsert cache target mac now, true)
    | none => (none, cache, true)

/-- A frame handed to the router by the sniffer. -/
inductive NetFrame
  /-- A frame carrying an IP payload. -/
  | ip (p : Packet)
  /-- An ARP frame: operation (1 = request, 2 = reply), claimed sender
  protocol address and sender hardware address. -/
  | arp (op senderIp senderMac : ℕ)
  /-- Any other non-IP frame. -/
  | other
deriving DecidableEq

/-- The ICMP Time-Exceeded frame built by `_send_icmp_time_exceeded`. -/
structure IcmpMsg where
  srcMac : ℕ
  dstMac : ℕ
  src : ℕ
  dst : ℕ
  ttl : ℕ
  icmpType : ℕ
  icmpCode : ℕ
  payload : List ℕ
  iface : String
deriving DecidableEq

/-- The frame emitted by a successful `forward`. -/
structure OutFrame where
  srcMac : ℕ
  dstMac : ℕ
  ip : Packet
  iface : String
deriving DecidableEq

inductive DropReason
  | ttl_expired
  | no_route
  | iface_missing
  | iface_disabled
  | loop_suppressed
  | arp_unresolved
deriving DecidableEq

/-- What one `forward` invocation did to the wire. -/
inductive ForwardResult
  /-- Non-IP frame: `forward` returns at once. -/
  | ignored
  /-- The packet was dropped; for a TTL drop the Time-Exceeded message
  that went out, if any, is attached. -/
  | dropped (reason : DropReason) (icmpOut : Option IcmpMsg)
  /-- The rebuilt packet was transmitted. -/
  | transmitted (f : OutFrame)
deriving DecidableEq

/-- `_update_flow(new_ip, in_if)`: create-or-update under the 5-tuple
key; dictionary insertion order puts a fresh key at the end. -/
def updateFlow (flows : List (FlowKey × FlowStats)) (k : FlowKey) (size : ℕ)
    (now : ℚ) (inIf : String) : List (FlowKey × FlowStats) :=
  match flows with
  | [] => [(k, ⟨1, size, now, now, inIf⟩)]
  | (k', f) :: rest =>
    if k' = k then
      (k', { f with pkts := f.pkts + 1, bytes := f.bytes + size, last := now }) :: rest
    else (k', f) :: updateFlow rest k size now inIf

/-- The 5-tuple of a packet, ports zero unless TCP/UDP
(`_update_flow`). -/
def fiveTuple (p : Packet) : FlowKey :=
  match p.upper with
  | .tcp sport dport _ _ _ => ⟨p.src, p.dst, p.proto, sport, dport⟩
  | .udp sport dport _ _ _ => ⟨p.src, p.dst, p.proto, sport, dport⟩
  | _ => ⟨p.src, p.dst, p.proto, 0, 0⟩

/-- `/flows?top=k`: all flow records sorted by bytes descending (stable),
truncated to `k`. -/
def flowGE (a b : FlowKey × FlowStats) : Prop := b.2.bytes ≤ a.2.bytes

instance : DecidableRel flowGE := fun a b => by unfold flowGE; infer_instance

instance : IsTotal (FlowKey × FlowStats) flowGE :=
  ⟨by intro a b; unfold flowGE; omega⟩

instance : IsTrans (FlowKey × FlowStats) flowGE :=
  ⟨by intro a b c; unfold flowGE; omega⟩

def topFlows (k : ℕ) (flows : List (FlowKey × FlowStats)) :
    List (FlowKey × FlowStats) :=
  (List.insertionSort flowGE flows).take k

/-- `_send_icmp_time_exceeded(ip, in_if_name)`: best-effort ICMP 11/0
back toward the packet's source.  Looks up a route to `ip.src`, needs
the egress interface present and enabled, resolves the next hop (which
may update the ARP cache and the miss counters), and only then emits a
Time-Exceeded message carrying the first 28 bytes of the original
packet, sourced from the egress interface's own address.  Every failure
returns silently. -/
def sendIcmpTimeExceeded (net : String → ℕ → Option ℕ) (now : ℚ)
    (st : RouterState) (p : Packet) : RouterState × Option IcmpMsg :=
  match lookup st.routes p.src with
  | none => (st, none)
  | some rt =>
    match findIface st.ifaces rt.interface with
    | none => (st, none)
    | some oif =>
      if oif.enabled = false then (st, none)
      else
        let nh := if rt.next_hop ≠ 0 then rt.next_hop else p.src
        let a := arpResolve net now st.arpCache oif nh
        let st' : RouterState :=
          { st with arpCache := a.2.1,
                    stats :=
                      if a.2.2 then
                        { st.stats with arp_miss := st.stats.arp_miss + 1,
                                        arp_sent := st.stats.arp_sent + 1 }
                      else st.stats }
        match a.1 with
        | none => (st', none)
        | some mac =>
          (st', some ⟨oif.mac, mac, oif.ip, p.src, 64, 11, 0,
            (wireBytes p).take 28, oif.name⟩)

/-- The per-frame L4 observability counters (`haslayer` checks at the
top of `forward`). -/
def l4Count (s : Stats) (u : UpperLayer) : Stats :=
  let s1 := if u.isIcmp then { s with icmp_packets := s.icmp_packets + 1 } else s
  let s2 := if u.isTcp then { s1 with tcp_packets := s1.tcp_packets + 1 } else s1
  if u.isUdp then { s2 with udp_packets := s2.udp_packets + 1 } else s2

/-- `L3Router.forward(frame, in_if_name)`: the full pipeline —
classification, TTL check (with optional Time-Exceeded), route lookup,
egress checks, split horizon, loop guard (marking before resolution),
rebuild, ARP resolution, transmission and flow accounting. -/
def forward (net : String → ℕ → Option ℕ) (now : ℚ) (st : RouterState)
    (fr : NetFrame) (inIf : String) : RouterState × ForwardResult :=
  match fr with
  | .arp _ _ _ => (st, .ignored)
  | .other => (st, .ignored)
  | .ip p =>
    let st1 : RouterState :=
      { st with stats :=
          l4Count { st.stats with rx_packets := st.stats.rx_packets + 1 } p.upper }
    if p.ttl ≤ 1 then
      let st2 : RouterState :=
        { st1 with stats :=
            { st1.stats with ttl_expired := st1.stats.ttl_expired + 1,
                             dropped_packets := st1.stats.dropped_packets + 1 } }
      if st2.settings.send_icmp_time_exceeded then
        let r := sendIcmpTimeExceeded net now st2 p
        (r.1, .dropped .ttl_expired r.2)
      else (st2, .dropped .ttl_expired none)
    else
      match lookup st1.routes p.dst with
      | none =>
        ({ st1 with stats :=
            { st1.stats with no_route := st1.stats.no_route + 1,
                             dropped_packets := st1.stats.dropped_packets + 1 } },
         .dropped .no_route none)
      | some rt =>
        match findIface st1.ifaces rt.interface with
        | none =>
          ({ st1 with stats :=
              { st1.stats with
                  dropped_packets := st1.stats.dropped_packets + 1 } },
           .dropped .iface_missing none)
        | some oif =>
          if oif.enabled = false then
            ({ st1 with stats :=
                { st1.stats with
                    dropped_packets := st1.stats.dropped_packets + 1 } },
             .dropped .iface_disabled none)
          else if st1.settings.split_horizon ∧ inIf = oif.name then
            ({ st1 with stats :=
                { st1.stats with
                    loop_suppressed := st1.stats.loop_suppressed + 1,
                    dropped_packets := st1.stats.dropped_packets + 1 } },
             .dropped .loop_suppressed none)
          else
            let sig : LoopSig := ⟨p.src, p.dst, p.proto, p.id, inIf, oif.name⟩
            if sigLive st1.loopGuard sig now then
              ({ st1 with stats :=
                  { st1.stats with
                      loop_suppressed := st1.stats.loop_suppressed + 1,
                      dropped_packets := st1.stats.dropped_packets + 1 } },
               .dropped .loop_suppressed none)
            else
              let st3 : RouterState :=
                { st1 with loopGuard := guardInsert st1.loopGuard sig now }
              let newIp := rebuildIP p
              let nh := if rt.next_hop ≠ 0 then rt.next_hop else newIp.dst
              let a := arpResolve net now st3.arpCache oif nh
              let st4 : RouterState :=
                { st3 with arpCache := a.2.1,
                           stats :=
                             if a.2.2 then
                               { st3.stats with
                                   arp_miss := st3.stats.arp_miss + 1,
                                   arp_sent := st3.stats.arp_sent + 1 }
                             else st3.stats }
              match a.1 with
              | none =>
                ({ st4 with stats :=
                    { st4.stats with
                        dropped_packets := st4.stats.dropped_packets + 1 } },
                 .dropped .arp_unresolved none)
              | some mac =>
                let st5 : RouterState :=
                  { st4 with
                      stats :=
                        { st4.stats with tx_packets := st4.stats.tx_packets + 1 },
                      flows := updateFlow st4.flows (fiveTuple newIp) newIp.len
                                 now inIf }
                (st5, .transmitted ⟨oif.mac, mac, newIp, oif.name⟩)

/-- The sniffer callback installed by `_start_sniffer_on`: frames on a
disabled interface are ignored, frames without an IP layer are ignored
(the BPF filter is `"ip"`, so ARP frames never even reach here), and IP
frames are handed to `forward`. -/
def snifferCb (net : String → ℕ → Option ℕ) (now : ℚ) (st : RouterState)
    (iface : IfaceInfo) (fr : NetFrame) : RouterState × ForwardResult :=
  if iface.enabled = false then (st, .ignored)
  else
    match fr with
    | .ip p => forward net now st (.ip p) iface.name
    | _ => (st, .ignored)

/-! ## Checksum verification predicates and a concrete test bench -/

/-- "The upper-layer checksum verifies": recomputing the protocol's
checksum over the (rebuilt) message — pseudo-header included for TCP and
UDP — with the stored checksum in place yields zero.  Raw payloads and
absent payloads carry no checksum. -/
def upperVerify (src dst : ℕ) : UpperLayer → Prop
  | .none => True
  | .raw _ => True
  | .icmp tc ck rest => csum (tc + rest.sum + ck) = 0
  | .tcp sport dport mid ck post =>
      csum (pseudoSum src dst 6 (2 * (3 + mid.length + post.length))
        + sport + dport + mid.sum + post.sum + ck) = 0
  | .udp sport dport ulen ck payload =>
      csum (pseudoSum src dst 17 ulen + sport + dport + ulen + payload.sum + ck) = 0

/-- A concrete ARP oracle: one answering host. -/
def net0 : String → ℕ → Option ℕ := fun _ t => if t = 3232235781 then some 555 else none

/-- Concrete interface 192.168.0.1 on "e0". -/
def iface0 : IfaceInfo := ⟨"e0", 3232235521, 1111, true⟩

/-- Concrete interface 192.168.1.1 on "e1". -/
def iface1 : IfaceInfo := ⟨"e1", 3232235777, 2222, true⟩

/-- Concrete on-link route to 192.168.1.0/24 out of "e1". -/
def rt0 : RouteEntry := ⟨3232235776, 24, true, 0, "e1", 1⟩

def stats0 : Stats := ⟨0, 0, 0, 0, 0, 0, 0, 0, 0, 0, 0⟩

/-- A concrete router state: two interfaces, one route, empty caches,
default settings. -/
def st0 : RouterState :=
  ⟨[iface0, iface1], [rt0], [], [], [], stats0, ⟨false, true, true⟩⟩

/-- A concrete ICMP echo packet from 192.168.0.9 to 192.168.1.5 with
TTL 2. -/
def p2 : Packet :=
  ⟨4, 5, 0, 32, 7, 0, 0, 2, 1, 4660, 3232235529, 3232235781, .icmp 2048 17 [9, 10]⟩

/-- The same packet with TTL 1. -/
def p1 : Packet := { p2 with ttl := 1 }

/-- A concrete TCP packet from 192.168.0.9 to 192.168.1.5, TTL 9. -/
def pTcp : Packet :=
  ⟨4, 5, 0, 44, 8, 2, 0, 9, 6, 4661, 3232235529, 3232235781,
    .tcp 40000 443 [1, 2, 3, 4, 5] 60000 [7, 8]⟩

/-! ## Flow accounting -/

/-- The packet count recorded for a 5-tuple (0 when absent). -/
def flowPkts (flows : List (FlowKey × FlowStats)) (k : FlowKey) : ℕ :=
  ((flows.find? (fun e => e.1 == k)).map (·.2.pkts)).getD 0

/-- The byte count recorded for a 5-tuple (0 when absent). -/
def flowBytes (flows : List (FlowKey × FlowStats)) (k : FlowKey) : ℕ :=
  ((flows.find? (fun e => e.1 == k)).map (·.2.bytes)).getD 0

/-- Folding a sequence of same-key updates into the flow table (one per
forwarded packet, carrying that packet's length). -/
def applyFlowSizes (flows : List (FlowKey × FlowStats)) (k : FlowKey)
    (sizes : List ℕ) (now : ℚ) (inIf : String) : List (FlowKey × FlowStats) :=
  sizes.foldl (fun fs size => updateFlow fs k size now inIf) flows

/-! ## Drop-reason counters -/

/-- A concrete route whose egress interface does not exist. -/
def rtMissing : RouteEntry := ⟨3232235776, 24, true, 0, "e9", 1⟩

/-- A concrete state holding only that route. -/
def stMissing : RouterState :=
  ⟨[iface0, iface1], [rtMissing], [], [], [], stats0, ⟨false, true, true⟩⟩

/-- A concrete payload-less IP packet to 192.168.1.5, TTL 9. -/
def pPlain : Packet :=
  ⟨4, 5, 0, 20, 3, 0, 0, 9, 253, 4660, 3232235529, 3232235781, .none⟩

/-- A concrete state whose loop guard already holds the signature of
`p2` arriving on "e0" bound for "e1", recorded at time 0. -/
def stGuard : RouterState :=
  ⟨[iface0, iface1], [rt0], [],
   [⟨⟨3232235529, 3232235781, 1, 7, "e0", "e1"⟩, 0⟩], [], stats0,
   ⟨false, true, true⟩⟩

/-- An ARP oracle that never answers. -/
def netNone : String → ℕ → Option ℕ := fun _ _ => none

/-- A concrete on-link route back to the 192.168.0.0/24 source network
via "e0". -/
def rtBack : RouteEntry := ⟨3232235520, 24, true, 0, "e0", 1⟩

/-- A concrete state that can route ICMP errors back to `p1.src`. -/
def stIcmp : RouterState :=
  ⟨[iface0, iface1], [rt0, rtBack], [], [], [], stats0, ⟨false, true, true⟩⟩

/-- An oracle answering the ARP request for the original sender. -/
def netB : String → ℕ → Option ℕ := fun _ t => if t = 3232235529 then some 888 else none

/-! ## Theorems -/

theorem foldc_eval (q r : ℕ) (hq : q ≤ 65536) (hr : r < 65536)
    (hs : q + r ≤ 131070) :
    foldc (65536 * q + r) = if q + r < 65536 then q + r else q + r + 1 := by
  have h1 : (65536 * q + r) / 65536 = q := by omega
  have h2 : (65536 * q + r) % 65536 = r := by omega
  unfold foldc
  rw [h1, h2]
  by_cases h : q + r < 65536
  · rw [if_pos h]
    have h3 : (q + r) / 65536 = 0 := by omega
    omega
  · rw [if_neg h]
    have h3 : (q + r) / 65536 = 1 := by omega
    omega

theorem csum_eval (q r : ℕ) (hq : q ≤ 65536) (hr : r < 65536)
    (hs : q + r ≤ 131070) :
    csum (65536 * q + r) =
      if q + r < 65536 then 65535 - (q + r) else 131070 - (q + r) := by
  unfold csum
  rw [foldc_eval q r hq hr hs]
  by_cases h : q + r < 65536
  · rw [if_pos h, if_pos h]
    have h4 : (q + r) % 65536 = q + r := by omega
    omega
  · rw [if_neg h, if_neg h]
    have h4 : (q + r + 1) % 65536 = q + r + 1 - 65536 := by omega
    omega

/-- Self-verification of the Internet checksum: placing the computed
checksum into the (previously zero) checksum slot makes the checksum of
the whole message vanish. -/
theorem csum_verify (S : ℕ) (h : S < 4294967296) : csum (S + csum S) = 0 := by
  obtain ⟨q, r, rfl, hq, hr⟩ :
      ∃ q r, S = 65536 * q + r ∧ q < 65536 ∧ r < 65536 :=
    ⟨S / 65536, S % 65536, by omega, by omega, by omega⟩
  rw [csum_eval q r (by omega) hr (by omega)]
  by_cases hqr : q + r < 65536
  · rw [if_pos hqr]
    have e : 65536 * q + r + (65535 - (q + r)) = 65536 * q + (65535 - q) := by
      omega
    rw [e, csum_eval q (65535 - q) (by omega) (by omega) (by omega)]
    rw [if_pos (by omega)]
    omega
  · rw [if_neg hqr]
    by_cases hq' : q ≤ 65534
    · have e : 65536 * q + r + (131070 - (q + r)) =
          65536 * (q + 1) + (65534 - q) := by omega
      rw [e, csum_eval (q + 1) (65534 - q) (by omega) (by omega) (by omega)]
      rw [if_pos (by omega)]
      omega
    · have hq65535 : q = 65535 := by omega
      subst hq65535
      have e : 65536 * 65535 + r + (131070 - (65535 + r)) =
          65536 * 65535 + 65535 := by omega
      rw [e, csum_eval 65535 65535 (by omega) (by omega) (by omega)]
      rw [if_neg (by omega)]

/-- The UDP special case: when the computed checksum is `0`, scapy
transmits `0xffff` instead; that value also verifies. -/
theorem csum_verify_ffff (S : ℕ) (h : S < 4294967296) (h0 : csum S = 0) :
    csum (S + 65535) = 0 := by
  obtain ⟨q, r, rfl, hq, hr⟩ :
      ∃ q r, S = 65536 * q + r ∧ q < 65536 ∧ r < 65536 :=
    ⟨S / 65536, S % 65536, by omega, by omega, by omega⟩
  rw [csum_eval q r (by omega) hr (by omega)] at h0
  by_cases hqr : q + r < 65536
  · rw [if_pos hqr] at h0
    have hsum : q + r = 65535 := by omega
    by_cases hq' : q ≤ 65534
    · have e : 65536 * q + r + 65535 = 65536 * (q + 1) + (65534 - q) := by omega
      rw [e, csum_eval (q + 1) (65534 - q) (by omega) (by omega) (by omega)]
      rw [if_pos (by omega)]
      omega
    · have hq65535 : q = 65535 := by omega
      have hr0 : r = 0 := by omega
      subst hq65535; subst hr0
      rw [show 65536 * 65535 + 0 + 65535 = 65536 * 65535 + 65535 by omega]
      rw [csum_eval 65535 65535 (by omega) (by omega) (by omega)]
      rw [if_neg (by omega)]
  · rw [if_neg hqr] at h0
    have hq65535 : q = 65535 := by omega
    have hr65535 : r = 65535 := by omega
    subst hq65535; subst hr65535
    rw [show 65536 * 65535 + 65535 + 65535 = 65536 * 65536 + 65534 by omega]
    rw [csum_eval 65536 65534 (by omega) (by omega) (by omega)]
    rw [if_neg (by omega)]

theorem routeLE_trans {a b c : RouteEntry} (h1 : routeLE a b) (h2 : routeLE b c) :
    routeLE a c := by
  unfold routeLE at *; omega

theorem not_routeBetter_of_routeLE {a b : RouteEntry} (h : routeLE a b) :
    ¬ routeBetter b a := by
  unfold routeLE at h; unfold routeBetter; omega

theorem routeBetter_of_not_routeLE {a b : RouteEntry} (h : ¬ routeLE a b) :
    routeBetter b a := by
  unfold routeLE at h; unfold routeBetter; omega

theorem combineBest_neg {p : RouteEntry → Bool} {x : RouteEntry}
    (hpx : p x = false) (o : Option RouteEntry) : combineBest p x o = o := by
  cases o <;> simp [combineBest, hpx]

/-- Key lemma: on a sorted table, inserting `x` in order and then taking
the first match is the same as combining `x` with the first match of the
rest. -/
theorem find?_orderedInsert (p : RouteEntry → Bool) (x : RouteEntry) :
    ∀ l : List RouteEntry, l.Sorted routeLE →
      (List.orderedInsert routeLE x l).find? p = combineBest p x (l.find? p) := by
  intro l
  induction l with
  | nil =>
    intro _
    cases hpx : p x <;> simp [List.orderedInsert, combineBest, hpx]
  | cons b l ih =>
    intro hs
    rcases List.sorted_cons.mp hs with ⟨hb, hl⟩
    by_cases hxb : routeLE x b
    · rw [List.orderedInsert, if_pos hxb]
      cases hpx : p x
      · rw [List.find?_cons_of_neg _ (by simp [hpx]), combineBest_neg hpx]
      · rw [List.find?_cons_of_pos _ hpx]
        cases hf : (b :: l).find? p with
        | none => simp [combineBest, hpx, hf]
        | some y =>
          have hy : routeLE x y := by
            have hyb := List.mem_of_find?_eq_some hf
            rcases List.mem_cons.mp hyb with he | hyl
            · exact he ▸ hxb
            · exact routeLE_trans hxb (hb y hyl)
          have hny : ¬ routeBetter y x := not_routeBetter_of_routeLE hy
          simp [combineBest, hpx, if_neg hny]
    · rw [List.orderedInsert, if_neg hxb]
      have hbx : routeBetter b x := routeBetter_of_not_routeLE hxb
      cases hpb : p b
      · rw [List.find?_cons_of_neg _ (by simp [hpb]),
          List.find?_cons_of_neg _ (by simp [hpb])]
        exact ih hl
      · rw [List.find?_cons_of_pos _ hpb, List.find?_cons_of_pos _ hpb]
        cases hpx : p x <;> simp [combineBest, hpx, hbx]

/-- C1. For every routing-table contents (given in insertion order) and
every destination, `lookup` on the `_sort_routes`-sorted table returns
exactly the specification's choice: the matching entry with the strictly
longest prefix, lowest metric among equal prefix lengths, earliest
inserted among full ties, and `none` when nothing matches. -/
theorem lookup_longest_prefix_match (rs : List RouteEntry) (dst : ℕ) :
    lookup (sortRoutes rs) dst = bestRouteSpec dst rs := by
  induction rs with
  | nil => rfl
  | cons x xs ih =>
    unfold sortRoutes at ih ⊢
    rw [List.insertionSort]
    unfold lookup at ih ⊢
    rw [find?_orderedInsert _ _ _ (List.sorted_insertionSort routeLE xs), ih]
    rfl

theorem mem_map_routeKey_replaceOrAppend {k : ℕ × ℕ × Bool} {r : RouteEntry} :
    ∀ {rs : List RouteEntry}, k ∈ (replaceOrAppend rs r).map routeKey →
      k ∈ rs.map routeKey ∨ k = routeKey r := by
  intro rs
  induction rs with
  | nil => intro h; simp [replaceOrAppend] at h; exact Or.inr h
  | cons c cs ih =>
    intro h
    rw [replaceOrAppend] at h
    by_cases hk : routeKey c = routeKey r
    · rw [if_pos hk] at h
      rcases List.mem_cons.mp h with he | hm
      · exact Or.inr he
      · exact Or.inl (List.mem_cons_of_mem _ hm)
    · rw [if_neg hk] at h
      rcases List.mem_cons.mp h with he | hm
      · exact Or.inl (by simp [he])
      · rcases ih hm with h1 | h2
        · exact Or.inl (List.mem_cons_of_mem _ h1)
        · exact Or.inr h2

theorem keysNodup_replaceOrAppend {rs : List RouteEntry} {r : RouteEntry}
    (h : keysNodup rs) : keysNodup (replaceOrAppend rs r) := by
  induction rs with
  | nil => simp [keysNodup, replaceOrAppend]
  | cons c cs ih =>
    unfold keysNodup at h
    rw [List.map_cons, List.nodup_cons] at h
    unfold keysNodup
    rw [replaceOrAppend]
    by_cases hk : routeKey c = routeKey r
    · rw [if_pos hk, List.map_cons, List.nodup_cons]
      exact ⟨hk ▸ h.1, h.2⟩
    · rw [if_neg hk, List.map_cons, List.nodup_cons]
      refine ⟨fun hmem => ?_, ih h.2⟩
      rcases mem_map_routeKey_replaceOrAppend hmem with h1 | h2
      · exact h.1 h1
      · exact hk (h2 ▸ rfl)

theorem keysNodup_perm {rs rs' : List RouteEntry} (hp : rs.Perm rs')
    (h : keysNodup rs) : keysNodup rs' :=
  ((hp.map routeKey).nodup_iff).mp h

theorem keysNodup_sortRoutes {rs : List RouteEntry} (h : keysNodup rs) :
    keysNodup (sortRoutes rs) :=
  keysNodup_perm (List.perm_insertionSort routeLE rs).symm h

theorem keysNodup_addRoute {rs : List RouteEntry} {r : RouteEntry}
    (h : keysNodup rs) : keysNodup (addRoute rs r) :=
  keysNodup_sortRoutes (keysNodup_replaceOrAppend h)

theorem keysNodup_delRoute {rs : List RouteEntry} {network masklen : ℕ}
    {dotted : Bool} (h : keysNodup rs) :
    keysNodup (delRoute rs network masklen dotted) :=
  List.Nodup.sublist ((List.filter_sublist rs).map routeKey) h

/-- The table stays sorted across mutations: `add_route` re-sorts, and
`del_route` filters (which preserves sortedness). -/
theorem sorted_applyOp {rs : List RouteEntry} (op : RouteOp)
    (h : rs.Sorted routeLE) : (applyOp rs op).Sorted routeLE := by
  cases op with
  | add r => exact List.sorted_insertionSort routeLE _
  | del network masklen dotted => exact h.filter _

theorem replaceOrAppend_of_not_mem {rs : List RouteEntry} {r : RouteEntry}
    (h : routeKey r ∉ rs.map routeKey) : replaceOrAppend rs r = rs ++ [r] := by
  induction rs with
  | nil => rfl
  | cons c cs ih =>
    rw [List.map_cons] at h
    rw [replaceOrAppend, if_neg (fun he => h (List.mem_cons.mpr (Or.inl he.symm))),
      ih (fun hm => h (List.mem_cons.mpr (Or.inr hm)))]
    rfl

theorem map_substRoute_of_not_mem {rs : List RouteEntry} {r : RouteEntry}
    (h : routeKey r ∉ rs.map routeKey) : rs.map (substRoute r) = rs := by
  induction rs with
  | nil => rfl
  | cons c cs ih =>
    rw [List.map_cons] at h
    rw [List.map_cons, substRoute,
      if_neg (fun he => h (List.mem_cons.mpr (Or.inl he.symm))),
      ih (fun hm => h (List.mem_cons.mpr (Or.inr hm)))]

theorem replaceOrAppend_of_mem {rs : List RouteEntry} {r : RouteEntry}
    (hnd : keysNodup rs) (h : routeKey r ∈ rs.map routeKey) :
    replaceOrAppend rs r = rs.map (substRoute r) := by
  induction rs with
  | nil => simp at h
  | cons c cs ih =>
    unfold keysNodup at hnd
    rw [List.map_cons, List.nodup_cons] at hnd
    rw [replaceOrAppend, List.map_cons]
    by_cases hk : routeKey c = routeKey r
    · rw [if_pos hk, substRoute, if_pos hk,
        map_substRoute_of_not_mem (hk ▸ hnd.1)]
    · rw [if_neg hk, substRoute, if_neg hk]
      rcases List.mem_cons.mp (List.map_cons routeKey c cs ▸ h) with he | hm
      · exact absurd he.symm hk
      · rw [ih hnd.2 hm]

theorem invariants_applyOp {rs : List RouteEntry} (op : RouteOp)
    (h : keysNodup rs ∧ rs.Sorted routeLE) :
    keysNodup (applyOp rs op) ∧ (applyOp rs op).Sorted routeLE := by
  refine ⟨?_, sorted_applyOp op h.2⟩
  cases op with
  | add r => exact keysNodup_addRoute h.1
  | del network masklen dotted => exact keysNodup_delRoute h.1

theorem invariants_applyOps (ops : List RouteOp) :
    ∀ rs : List RouteEntry, keysNodup rs ∧ rs.Sorted routeLE →
      keysNodup (applyOps rs ops) ∧ (applyOps rs ops).Sorted routeLE := by
  induction ops with
  | nil => intro rs h; exact h
  | cons op ops ih =>
    intro rs h
    exact ih (applyOp rs op) (invariants_applyOp op h)

/-- Amended C7.  Starting from the empty table, any sequence of
`add_route` / `del_route` operations keeps the table free of duplicate
raw (network, netmask) pairs — the netmask compared as the supplied
string, so the same prefix length under its two spellings forms two
distinct keys — and sorted by the `_sort_routes` order; an upsert whose
raw key is already present is, up to the re-sort, the substitution of
the new route for the old entry (in particular the entry count does not
grow), while an upsert with a fresh raw key appends. -/
theorem route_table_replace_semantics :
    (∀ ops : List RouteOp,
        keysNodup (applyOps [] ops) ∧ (applyOps [] ops).Sorted routeLE)
    ∧ (∀ (rs : List RouteEntry) (r : RouteEntry), keysNodup rs →
        routeKey r ∈ rs.map routeKey →
          (addRoute rs r).Perm (rs.map (substRoute r))
          ∧ (addRoute rs r).length = rs.length)
    ∧ (∀ (rs : List RouteEntry) (r : RouteEntry),
        routeKey r ∉ rs.map routeKey → (addRoute rs r).Perm (rs ++ [r])) := by
  refine ⟨?_, ?_, ?_⟩
  · intro ops
    exact invariants_applyOps ops [] ⟨List.nodup_nil, List.sorted_nil⟩
  · intro rs r hnd hmem
    have hp : (addRoute rs r).Perm (replaceOrAppend rs r) :=
      List.perm_insertionSort routeLE _
    rw [replaceOrAppend_of_mem hnd hmem] at hp
    exact ⟨hp, by rw [hp.length_eq, List.length_map]⟩
  · intro rs r hmem
    have hp : (addRoute rs r).Perm (replaceOrAppend rs r) :=
      List.perm_insertionSort routeLE _
    rwa [replaceOrAppend_of_not_mem hmem] at hp

/-- C7 counterexample: the same /24 network upserted once with the
netmask spelled `"255.255.255.0"` and once spelled `"24"`.
`add_route`'s raw string comparison treats the two as different keys
and appends, so the table ends up holding two entries with identical
denoted (network, prefix_len) — refuting the claim as stated. -/
theorem route_table_replace_semantics_cex :
    (applyOps [] [.add ⟨167772160, 24, true, 0, "e0", 1⟩,
        .add ⟨167772160, 24, false, 0, "e1", 7⟩]).map
          (fun r => (r.network, r.masklen))
      = [(167772160, 24), (167772160, 24)] := by
  decide

/-- Concrete instantiation of the replace-semantics theorem: replacing
the route under an identical raw netmask keeps a single entry, and a
fresh raw key appends. -/
theorem route_table_replace_semantics_witness :
    keysNodup (applyOps [] [.add ⟨167772160, 24, true, 0, "e0", 1⟩,
        .add ⟨167772160, 24, true, 0, "e1", 7⟩])
    ∧ (addRoute [⟨167772160, 24, true, 0, "e0", 1⟩]
        ⟨167772160, 24, true, 0, "e1", 7⟩).length = 1
    ∧ (addRoute [⟨167772160, 24, true, 0, "e0", 1⟩]
        ⟨0, 0, true, 3232235521, "e1", 1⟩).Perm
          ([⟨167772160, 24, true, 0, "e0", 1⟩]
            ++ [⟨0, 0, true, 3232235521, "e1", 1⟩]) := by
  refine ⟨(route_table_replace_semantics.1 _).1, ?_, ?_⟩
  · exact (route_table_replace_semantics.2.1 [⟨167772160, 24, true, 0, "e0", 1⟩]
      ⟨167772160, 24, true, 0, "e1", 7⟩ (by decide) (by decide)).2
  · exact route_table_replace_semantics.2.2 [⟨167772160, 24, true, 0, "e0", 1⟩]
      ⟨0, 0, true, 3232235521, "e1", 1⟩ (by decide)

/-- Inversion of a successful `forward`: the transmitted frame carries
the rebuilt packet, and the flow table was updated under the rebuilt
packet's 5-tuple with the rebuilt packet's length. -/
theorem forward_transmitted_inv (net : String → ℕ → Option ℕ) (now : ℚ)
    (st : RouterState) (p : Packet) (inIf : String) (st' : RouterState)
    (f : OutFrame)
    (hfw : forward net now st (.ip p) inIf = (st', .transmitted f)) :
    f.ip = rebuildIP p ∧
    st'.flows = updateFlow st.flows (fiveTuple (rebuildIP p)) (rebuildIP p).len
      now inIf := by
  simp only [forward] at hfw
  split at hfw
  · split at hfw <;> simp at hfw
  · split at hfw
    · simp at hfw
    · split at hfw
      · simp at hfw
      · split at hfw
        · simp at hfw
        · split at hfw
          · simp at hfw
          · split at hfw
            · simp at hfw
            · split at hfw
              · simp at hfw
              · rw [Prod.mk.injEq] at hfw
                obtain ⟨h1, hres⟩ := hfw
                cases hres
                subst h1
                exact ⟨rfl, rfl⟩

/-- C2. A packet with TTL at most 1 is dropped with reason
`ttl_expired` whatever the routing and ARP state (the optional ICMP
Time-Exceeded notification is a different frame; the inbound packet
itself is never transmitted); a packet with TTL 2 that is forwarded
carries TTL exactly 1 in the rebuilt packet. -/
theorem ttl_boundary :
    (∀ (net : String → ℕ → Option ℕ) (now : ℚ) (st : RouterState) (p : Packet)
        (inIf : String), p.ttl ≤ 1 →
        ∃ m, (forward net now st (.ip p) inIf).2 = .dropped .ttl_expired m)
    ∧ (∀ (net : String → ℕ → Option ℕ) (now : ℚ) (st : RouterState) (p : Packet)
        (inIf : String) (st' : RouterState) (f : OutFrame), p.ttl = 2 →
        forward net now st (.ip p) inIf = (st', .transmitted f) →
        f.ip.ttl = 1) := by
  constructor
  · intro net now st p inIf h
    simp only [forward, if_pos h]
    by_cases hs : st.settings.send_icmp_time_exceeded = true
    · simp [hs]
    · simp [hs]
  · intro net now st p inIf st' f h2 hfw
    obtain ⟨hip, -⟩ := forward_transmitted_inv net now st p inIf st' f hfw
    rw [hip]
    simp [rebuildIP, h2]

/-- Instantiation of the TTL boundary: a concrete TTL-1 packet is
dropped `ttl_expired`, and the concrete TTL-2 packet that `st0`
successfully forwards comes out with TTL 1. -/
theorem ttl_boundary_witness :
    (∃ m, (forward net0 0 st0 (.ip p1) "e0").2 = .dropped .ttl_expired m)
    ∧ (⟨2222, 555, rebuildIP p2, "e1"⟩ : OutFrame).ip.ttl = 1 := by
  constructor
  · exact ttl_boundary.1 net0 0 st0 p1 "e0" (by decide)
  · exact ttl_boundary.2 net0 0 st0 p2 "e0" (forward net0 0 st0 (.ip p2) "e0").1
      ⟨2222, 555, rebuildIP p2, "e1"⟩ (by decide) (by decide)

theorem upperWords_rebuildUpper_length (src dst : ℕ) (u : UpperLayer) :
    (upperWords (rebuildUpper src dst u)).length = (upperWords u).length := by
  cases u <;> simp [rebuildUpper, upperWords]

theorem headerWords_sum_set_chksum (v ihl tos len id fl fr ttl proto src dst : ℕ)
    (u : UpperLayer) (c : ℕ) :
    (headerWords ⟨v, ihl, tos, len, id, fl, fr, ttl, proto, c, src, dst, u⟩).sum
      = (headerWords ⟨v, ihl, tos, len, id, fl, fr, ttl, proto, 0, src, dst, u⟩).sum
        + c := by
  simp only [headerWords, List.sum_cons, List.sum_nil]
  omega

theorem rebuildIP_header_checksum (p : Packet) (hwf : p.WF) :
    csum (headerWords (rebuildIP p)).sum = 0 := by
  obtain ⟨hv, hihl, htos, hlen, hid, hfl, hfr, httl, hpr, hck, hsrc, hdst, hw, hwl⟩ := hwf
  simp only [rebuildIP]
  rw [headerWords_sum_set_chksum]
  apply csum_verify
  have hub : upperByteLen (rebuildUpper p.src p.dst p.upper)
      = 2 * (upperWords p.upper).length := by
    rw [upperByteLen, upperWords_rebuildUpper_length]
  have hmax : max 1 (p.ttl - 1) ≤ 255 := Nat.max_le.mpr ⟨by omega, by omega⟩
  simp only [headerWords, List.sum_cons, List.sum_nil]
  simp only [hub]
  omega

theorem wordSum_le (l : List ℕ) (h : ∀ w ∈ l, w < 65536) :
    l.sum ≤ l.length * 65535 := by
  have := List.sum_le_card_nsmul l 65535 (fun w hw => by have := h w hw; omega)
  simpa [smul_eq_mul] using this

theorem udp_ck_verify (S : ℕ) (h : S < 4294967296) :
    csum (S + (if csum S = 0 then 65535 else csum S)) = 0 := by
  by_cases hc : csum S = 0
  · rw [if_pos hc]; exact csum_verify_ffff S h hc
  · rw [if_neg hc]; exact csum_verify S h

theorem rebuildUpper_verify (p : Packet) (hwf : p.WF) :
    upperVerify p.src p.dst (rebuildUpper p.src p.dst p.upper) := by
  obtain ⟨-, -, -, -, -, -, -, -, -, -, hsrc, hdst, hw, hwl⟩ := hwf
  cases hu : p.upper with
  | none => simp [rebuildUpper, upperVerify]
  | raw ws => simp [rebuildUpper, upperVerify]
  | icmp tc ck rest =>
    rw [hu] at hw hwl
    have htc : tc < 65536 := hw tc (by simp [upperWords])
    have hrest : rest.sum ≤ rest.length * 65535 :=
      wordSum_le rest (fun w hwm => hw w (by simp [upperWords, hwm]))
    have hrl : rest.length ≤ 32738 := by
      simp [upperWords] at hwl; omega
    simp only [rebuildUpper, upperVerify, upperSum0]
    exact csum_verify (tc + rest.sum) (by omega)
  | tcp sport dport mid ck post =>
    rw [hu] at hw hwl
    have hsp : sport < 65536 := hw _ (by simp [upperWords])
    have hdp : dport < 65536 := hw _ (by simp [upperWords])
    have hmid : mid.sum ≤ mid.length * 65535 :=
      wordSum_le _ (fun w hwm => hw w (by simp [upperWords, hwm]))
    have hpost : post.sum ≤ post.length * 65535 :=
      wordSum_le _ (fun w hwm => hw w (by simp [upperWords, hwm]))
    have hl : mid.length + post.length ≤ 32737 := by
      simp [upperWords] at hwl; omega
    simp only [rebuildUpper, upperVerify, upperSum0]
    apply csum_verify
    simp only [pseudoSum]
    omega
  | udp sport dport ulen ck payload =>
    rw [hu] at hw hwl
    have hsp : sport < 65536 := hw _ (by simp [upperWords])
    have hdp : dport < 65536 := hw _ (by simp [upperWords])
    have hpay : payload.sum ≤ payload.length * 65535 :=
      wordSum_le _ (fun w hwm => hw w (by simp [upperWords, hwm]))
    have hl : payload.length ≤ 32736 := by
      simp [upperWords] at hwl; omega
    simp only [rebuildUpper, upperVerify, upperSum0]
    exact udp_ck_verify _ (by simp only [pseudoSum]; omega)

/-- C3. Every packet that reaches TRANSMIT carries a rebuilt IP header
whose Internet checksum self-verifies (recomputing over the header words
with the stored checksum yields zero), a rebuilt ICMP/TCP/UDP checksum
that likewise verifies (pseudo-header included for TCP/UDP, and the UDP
zero-to-0xffff substitution accounted for), and identification, flags
and fragment fields equal to the original packet's. -/
theorem rebuilt_packet_checksums (net : String → ℕ → Option ℕ) (now : ℚ)
    (st : RouterState) (p : Packet) (inIf : String) (st' : RouterState)
    (f : OutFrame) (hwf : p.WF)
    (hfw : forward net now st (.ip p) inIf = (st', .transmitted f)) :
    csum (headerWords f.ip).sum = 0
    ∧ upperVerify f.ip.src f.ip.dst f.ip.upper
    ∧ f.ip.id = p.id ∧ f.ip.flags = p.flags ∧ f.ip.frag = p.frag := by
  obtain ⟨hip, -⟩ := forward_transmitted_inv net now st p inIf st' f hfw
  rw [hip]
  exact ⟨rebuildIP_header_checksum p hwf, rebuildUpper_verify p hwf, rfl, rfl, rfl⟩

/-- Instantiation of the checksum invariant on a concrete forwarded TCP
packet. -/
theorem rebuilt_packet_checksums_witness :
    csum (headerWords (rebuildIP pTcp)).sum = 0
    ∧ upperVerify (rebuildIP pTcp).src (rebuildIP pTcp).dst (rebuildIP pTcp).upper
    ∧ (rebuildIP pTcp).id = pTcp.id ∧ (rebuildIP pTcp).flags = pTcp.flags
    ∧ (rebuildIP pTcp).frag = pTcp.frag :=
  rebuilt_packet_checksums net0 0 st0 pTcp "e0"
    (forward net0 0 st0 (.ip pTcp) "e0").1 ⟨2222, 555, rebuildIP pTcp, "e1"⟩
    (by decide) (by decide)

theorem updateFlow_counts (flows : List (FlowKey × FlowStats)) (k : FlowKey)
    (size : ℕ) (now : ℚ) (inIf : String) :
    flowPkts (updateFlow flows k size now inIf) k = flowPkts flows k + 1
    ∧ flowBytes (updateFlow flows k size now inIf) k
        = flowBytes flows k + size := by
  induction flows with
  | nil => simp [updateFlow, flowPkts, flowBytes]
  | cons hd rest ih =>
    obtain ⟨k', f⟩ := hd
    by_cases hk : k' = k
    · subst hk
      simp [updateFlow, flowPkts, flowBytes]
    · simp only [updateFlow, if_neg hk]
      have hbeq : (k' == k) = false := by simp [hk]
      simp only [flowPkts, flowBytes, List.find?_cons, hbeq] at ih ⊢
      exact ih

theorem applyFlowSizes_counts (sizes : List ℕ) :
    ∀ (flows : List (FlowKey × FlowStats)) (k : FlowKey) (now : ℚ)
      (inIf : String),
      flowPkts (applyFlowSizes flows k sizes now inIf) k
          = flowPkts flows k + sizes.length
      ∧ flowBytes (applyFlowSizes flows k sizes now inIf) k
          = flowBytes flows k + sizes.sum := by
  induction sizes with
  | nil => intro flows k now inIf; simp [applyFlowSizes]
  | cons s rest ih =>
    intro flows k now inIf
    have hstep := updateFlow_counts flows k s now inIf
    have hrest := ih (updateFlow flows k s now inIf) k now inIf
    simp only [applyFlowSizes, List.foldl_cons] at hrest ⊢
    rw [hrest.1, hrest.2, hstep.1, hstep.2, List.length_cons, List.sum_cons]
    omega

theorem l4Count_counters (s : Stats) (u : UpperLayer) :
    (l4Count s u).rx_packets = s.rx_packets
    ∧ (l4Count s u).dropped_packets = s.dropped_packets
    ∧ (l4Count s u).no_route = s.no_route
    ∧ (l4Count s u).ttl_expired = s.ttl_expired
    ∧ (l4Count s u).loop_suppressed = s.loop_suppressed := by
  cases u <;>
    simp [l4Count, UpperLayer.isIcmp, UpperLayer.isTcp, UpperLayer.isUdp]

theorem sendIcmpTE_counters (net : String → ℕ → Option ℕ) (now : ℚ)
    (st : RouterState) (p : Packet) :
    ((sendIcmpTimeExceeded net now st p).1).stats.dropped_packets
        = st.stats.dropped_packets
    ∧ ((sendIcmpTimeExceeded net now st p).1).stats.ttl_expired
        = st.stats.ttl_expired
    ∧ ((sendIcmpTimeExceeded net now st p).1).stats.no_route
        = st.stats.no_route
    ∧ ((sendIcmpTimeExceeded net now st p).1).stats.loop_suppressed
        = st.stats.loop_suppressed := by
  unfold sendIcmpTimeExceeded
  split
  · exact ⟨rfl, rfl, rfl, rfl⟩
  · rename_i rt hrt
    split
    · exact ⟨rfl, rfl, rfl, rfl⟩
    · rename_i oif hoif
      split
      · exact ⟨rfl, rfl, rfl, rfl⟩
      · dsimp only
        rcases harp : arpResolve net now st.arpCache oif
            (if rt.next_hop ≠ 0 then rt.next_hop else p.src) with ⟨a1, a2, a3⟩
        cases a1 <;> cases a3 <;> exact ⟨rfl, rfl, rfl, rfl⟩

theorem l4c_dropped (s : Stats) (u : UpperLayer) :
    (l4Count s u).dropped_packets = s.dropped_packets :=
  (l4Count_counters s u).2.1

theorem l4c_no_route (s : Stats) (u : UpperLayer) :
    (l4Count s u).no_route = s.no_route :=
  (l4Count_counters s u).2.2.1

theorem l4c_ttl_expired (s : Stats) (u : UpperLayer) :
    (l4Count s u).ttl_expired = s.ttl_expired :=
  (l4Count_counters s u).2.2.2.1

theorem l4c_loop (s : Stats) (u : UpperLayer) :
    (l4Count s u).loop_suppressed = s.loop_suppressed :=
  (l4Count_counters s u).2.2.2.2

theorem icmpTE_dropped (net : String → ℕ → Option ℕ) (now : ℚ)
    (st : RouterState) (p : Packet) :
    ((sendIcmpTimeExceeded net now st p).1).stats.dropped_packets
      = st.stats.dropped_packets :=
  (sendIcmpTE_counters net now st p).1

theorem icmpTE_ttl_expired (net : String → ℕ → Option ℕ) (now : ℚ)
    (st : RouterState) (p : Packet) :
    ((sendIcmpTimeExceeded net now st p).1).stats.ttl_expired
      = st.stats.ttl_expired :=
  (sendIcmpTE_counters net now st p).2.1

theorem icmpTE_no_route (net : String → ℕ → Option ℕ) (now : ℚ)
    (st : RouterState) (p : Packet) :
    ((sendIcmpTimeExceeded net now st p).1).stats.no_route
      = st.stats.no_route :=
  (sendIcmpTE_counters net now st p).2.2.1

theorem icmpTE_loop (net : String → ℕ → Option ℕ) (now : ℚ)
    (st : RouterState) (p : Packet) :
    ((sendIcmpTimeExceeded net now st p).1).stats.loop_suppressed
      = st.stats.loop_suppressed :=
  (sendIcmpTE_counters net now st p).2.2.2

/-- Amended C4.  Every drop increments `dropped_packets`; the reasons
`ttl_expired`, `no_route` and `loop_suppressed` additionally increment
their like-named dedicated counters; the reasons `iface_missing`,
`iface_disabled` and `arp_unresolved` have no dedicated counter — none
of the reason counters moves for them (the reason appears only in the
log line). -/
theorem drop_reason_counters (net : String → ℕ → Option ℕ) (now : ℚ)
    (st : RouterState) (p : Packet) (inIf : String) (st' : RouterState)
    (reason : DropReason) (m : Option IcmpMsg)
    (hfw : forward net now st (.ip p) inIf = (st', .dropped reason m)) :
    st'.stats.dropped_packets = st.stats.dropped_packets + 1
    ∧ (reason = .ttl_expired →
        st'.stats.ttl_expired = st.stats.ttl_expired + 1)
    ∧ (reason = .no_route → st'.stats.no_route = st.stats.no_route + 1)
    ∧ (reason = .loop_suppressed →
        st'.stats.loop_suppressed = st.stats.loop_suppressed + 1)
    ∧ ((reason = .iface_missing ∨ reason = .iface_disabled ∨
        reason = .arp_unresolved) →
        st'.stats.ttl_expired = st.stats.ttl_expired
        ∧ st'.stats.no_route = st.stats.no_route
        ∧ st'.stats.loop_suppressed = st.stats.loop_suppressed) := by
  simp only [forward] at hfw
  split at hfw
  · split at hfw <;>
      (rw [Prod.mk.injEq] at hfw
       obtain ⟨h1, h2⟩ := hfw
       injection h2 with hr hm
       subst hr
       subst h1
       simp [icmpTE_dropped, icmpTE_ttl_expired, icmpTE_no_route, icmpTE_loop,
         l4c_dropped, l4c_no_route, l4c_ttl_expired, l4c_loop])
  · split at hfw
    · rw [Prod.mk.injEq] at hfw
      obtain ⟨h1, h2⟩ := hfw
      injection h2 with hr hm
      subst hr
      subst h1
      simp [l4c_dropped, l4c_no_route, l4c_ttl_expired, l4c_loop]
    · split at hfw
      · rw [Prod.mk.injEq] at hfw
        obtain ⟨h1, h2⟩ := hfw
        injection h2 with hr hm
        subst hr
        subst h1
        simp [l4c_dropped, l4c_no_route, l4c_ttl_expired, l4c_loop]
      · split at hfw
        · rw [Prod.mk.injEq] at hfw
          obtain ⟨h1, h2⟩ := hfw
          injection h2 with hr hm
          subst hr
          subst h1
          simp [l4c_dropped, l4c_no_route, l4c_ttl_expired, l4c_loop]
        · split at hfw
          · rw [Prod.mk.injEq] at hfw
            obtain ⟨h1, h2⟩ := hfw
            injection h2 with hr hm
            subst hr
            subst h1
            simp [l4c_dropped, l4c_no_route, l4c_ttl_expired, l4c_loop]
          · split at hfw
            · rw [Prod.mk.injEq] at hfw
              obtain ⟨h1, h2⟩ := hfw
              injection h2 with hr hm
              subst hr
              subst h1
              simp [l4c_dropped, l4c_no_route, l4c_ttl_expired, l4c_loop]
            · split at hfw
              · rw [Prod.mk.injEq] at hfw
                obtain ⟨h1, h2⟩ := hfw
                injection h2 with hr hm
                subst hr
                subst h1
                simp [l4c_dropped, l4c_no_route, l4c_ttl_expired, l4c_loop,
                  apply_ite Stats.dropped_packets, apply_ite Stats.no_route,
                  apply_ite Stats.ttl_expired, apply_ite Stats.loop_suppressed]
              · simp at hfw

/-- C4 counterexample: a concrete `iface_missing` drop moves only
`rx_packets` and `dropped_packets` — the router's stats dictionary has
no counter dedicated to `iface_missing` (nor to `iface_disabled` or
`arp_unresolved`), so no such counter can be incremented. -/
theorem drop_reason_counters_cex :
    (forward net0 0 stMissing (.ip pPlain) "e0").2
        = .dropped .iface_missing none
    ∧ ((forward net0 0 stMissing (.ip pPlain) "e0").1).stats
        = { stats0 with rx_packets := 1, dropped_packets := 1 } := by
  decide

/-- Instantiation of the amended counter accounting on the concrete
`iface_missing` drop. -/
theorem drop_reason_counters_witness :
    ((forward net0 0 stMissing (.ip pPlain) "e0").1).stats.dropped_packets
        = stMissing.stats.dropped_packets + 1
    ∧ ((forward net0 0 stMissing (.ip pPlain) "e0").1).stats.ttl_expired
          = stMissing.stats.ttl_expired
      ∧ ((forward net0 0 stMissing (.ip pPlain) "e0").1).stats.no_route
          = stMissing.stats.no_route
      ∧ ((forward net0 0 stMissing (.ip pPlain) "e0").1).stats.loop_suppressed
          = stMissing.stats.loop_suppressed := by
  have h := drop_reason_counters net0 0 stMissing pPlain "e0"
    (forward net0 0 stMissing (.ip pPlain) "e0").1 .iface_missing none
    (by decide)
  exact ⟨h.1, h.2.2.2.2 (Or.inl rfl)⟩

/-! ## ARP learning -/

/-- C6 counterexample: an ARP reply observed on an interface (claimed
sender 192.168.0.10 at MAC 777) is ignored outright — the BPF filter is
`"ip"` and the handler discards non-IP frames — so no cache entry for
the sender is inserted or refreshed. -/
theorem arp_passive_learning_cex :
    snifferCb net0 0 st0 iface0 (.arp 2 3232235530 777) = (st0, .ignored)
    ∧ arpLookup
        ((snifferCb net0 0 st0 iface0 (.arp 2 3232235530 777)).1).arpCache
        3232235530 0 = none := by
  decide

/-- Amended C6.  Observed address-resolution traffic is never learned:
the sniffer callback leaves the entire router state untouched on any
ARP frame.  The cache gains entries only inside `arp_resolve` — a reply
to the engine's own outstanding request is inserted, while a cache hit
or a resolution timeout leaves the cache unchanged. -/
theorem arp_passive_learning :
    (∀ (net : String → ℕ → Option ℕ) (now : ℚ) (st : RouterState)
        (iface : IfaceInfo) (op sip smac : ℕ),
        snifferCb net now st iface (.arp op sip smac) = (st, .ignored))
    ∧ (∀ (net : String → ℕ → Option ℕ) (now : ℚ) (cache : List ArpEntry)
        (oif : IfaceInfo) (target mac : ℕ),
        arpLookup cache target now = none → net oif.name target = some mac →
        arpResolve net now cache oif target
          = (some mac, arpInsert cache target mac now, true))
    ∧ (∀ (net : String → ℕ → Option ℕ) (now : ℚ) (cache : List ArpEntry)
        (oif : IfaceInfo) (target : ℕ),
        arpLookup cache target now = none → net oif.name target = none →
        arpResolve net now cache oif target = (none, cache, true))
    ∧ (∀ (net : String → ℕ → Option ℕ) (now : ℚ) (cache : List ArpEntry)
        (oif : IfaceInfo) (target mac : ℕ),
        arpLookup cache target now = some mac →
        arpResolve net now cache oif target = (some mac, cache, false)) := by
  refine ⟨?_, ?_, ?_, ?_⟩
  · intro net now st iface op sip smac
    unfold snifferCb
    split <;> rfl
  · intro net now cache oif target mac hmiss hnet
    unfold arpResolve
    rw [hmiss, hnet]
  · intro net now cache oif target hmiss hnet
    unfold arpResolve
    rw [hmiss, hnet]
  · intro net now cache oif target mac hhit
    unfold arpResolve
    rw [hhit]

/-- Instantiation of the amended ARP behaviour: the concrete oracle's
reply to the router's own request for 192.168.1.5 is inserted into the
empty cache. -/
theorem arp_passive_learning_witness :
    snifferCb net0 0 st0 iface0 (.arp 1 3232235530 777) = (st0, .ignored)
    ∧ arpResolve net0 0 [] iface1 3232235781
        = (some 555, arpInsert [] 3232235781 555 0, true) :=
  ⟨arp_passive_learning.1 net0 0 st0 iface0 1 3232235530 777,
   arp_passive_learning.2.1 net0 0 [] iface1 3232235781 555 (by decide)
     (by decide)⟩

/-! ## Loop suppression -/

theorem sigLive_guardInsert (g : List GuardEntry) (sig : LoopSig) (now t2 : ℚ)
    (h : t2 < now + 1) : sigLive (guardInsert g sig now) sig t2 = true := by
  simp [sigLive, guardInsert, h]

/-- A packet that reaches the loop-guard stage with a novel signature
has that signature recorded at `now` — before ARP resolution or
transmission, hence whatever the rest of the pipeline does. -/
theorem forward_guard_marks (net : String → ℕ → Option ℕ) (now : ℚ)
    (st : RouterState) (p : Packet) (inIf : String) (rt : RouteEntry)
    (oif : IfaceInfo)
    (httl : 1 < p.ttl)
    (hlk : lookup st.routes p.dst = some rt)
    (hfi : findIface st.ifaces rt.interface = some oif)
    (hen : oif.enabled = true)
    (hns : ¬(st.settings.split_horizon = true ∧ inIf = oif.name))
    (hsig : sigLive st.loopGuard ⟨p.src, p.dst, p.proto, p.id, inIf, oif.name⟩
      now = false) :
    ((forward net now st (.ip p) inIf).1).loopGuard
      = guardInsert st.loopGuard ⟨p.src, p.dst, p.proto, p.id, inIf, oif.name⟩
          now := by
  simp only [forward]
  rw [if_neg (by omega)]
  simp only [hlk, hfi, hen, hsig, hns]
  rcases harp : arpResolve net now st.arpCache oif
      (if rt.next_hop ≠ 0 then rt.next_hop else (rebuildIP p).dst)
    with ⟨a1, a2, a3⟩
  cases a1 <;> rfl

/-- C8. Loop suppression.  (1) With split horizon enabled, a packet
whose computed egress interface equals its ingress interface is dropped
`loop_suppressed` and never transmitted.  (2) A packet whose signature
is still live in the loop guard is dropped `loop_suppressed` and never
transmitted.  (3) A packet that passes the guard stage records its
signature at `now`, and the record stays live at every instant less
than one second later — so a second packet with the identical signature
processed within the window falls under (2), even on interface pairs
split horizon would not catch. -/
theorem loop_suppression :
    (∀ (net : String → ℕ → Option ℕ) (now : ℚ) (st : RouterState) (p : Packet)
        (rt : RouteEntry) (oif : IfaceInfo),
        st.settings.split_horizon = true → 1 < p.ttl →
        lookup st.routes p.dst = some rt →
        findIface st.ifaces rt.interface = some oif → oif.enabled = true →
        (forward net now st (.ip p) oif.name).2
          = .dropped .loop_suppressed none)
    ∧ (∀ (net : String → ℕ → Option ℕ) (now : ℚ) (st : RouterState)
        (p : Packet) (inIf : String) (rt : RouteEntry) (oif : IfaceInfo),
        1 < p.ttl → lookup st.routes p.dst = some rt →
        findIface st.ifaces rt.interface = some oif → oif.enabled = true →
        ¬(st.settings.split_horizon = true ∧ inIf = oif.name) →
        sigLive st.loopGuard ⟨p.src, p.dst, p.proto, p.id, inIf, oif.name⟩ now
          = true →
        (forward net now st (.ip p) inIf).2 = .dropped .loop_suppressed none)
    ∧ (∀ (net : String → ℕ → Option ℕ) (now : ℚ) (st : RouterState)
        (p : Packet) (inIf : String) (rt : RouteEntry) (oif : IfaceInfo),
        1 < p.ttl → lookup st.routes p.dst = some rt →
        findIface st.ifaces rt.interface = some oif → oif.enabled = true →
        ¬(st.settings.split_horizon = true ∧ inIf = oif.name) →
        sigLive st.loopGuard ⟨p.src, p.dst, p.proto, p.id, inIf, oif.name⟩ now
          = false →
        ∀ t2 : ℚ, t2 < now + 1 →
          sigLive ((forward net now st (.ip p) inIf).1).loopGuard
            ⟨p.src, p.dst, p.proto, p.id, inIf, oif.name⟩ t2 = true) := by
  refine ⟨?_, ?_, ?_⟩
  · intro net now st p rt oif hsp httl hlk hfi hen
    simp only [forward]
    rw [if_neg (by omega)]
    simp [hlk, hfi, hen, hsp]
  · intro net now st p inIf rt oif httl hlk hfi hen hns hsig
    simp only [forward]
    rw [if_neg (by omega)]
    simp [hlk, hfi, hen, hsig, hns]
  · intro net now st p inIf rt oif httl hlk hfi hen hns hsig t2 ht2
    rw [forward_guard_marks net now st p inIf rt oif httl hlk hfi hen hns hsig]
    exact sigLive_guardInsert _ _ now t2 ht2

/-- Instantiation of loop suppression: `p2` arriving on "e1" (its own
egress) is split-horizon-dropped; `p2` arriving on "e0" half a second
after its signature was recorded is guard-dropped; and a first pass of
`p2` through `st0` leaves its signature live half a second later. -/
theorem loop_suppression_witness :
    (forward net0 0 st0 (.ip p2) "e1").2 = .dropped .loop_suppressed none
    ∧ (forward net0 (1/2) stGuard (.ip p2) "e0").2
        = .dropped .loop_suppressed none
    ∧ sigLive ((forward net0 0 st0 (.ip p2) "e0").1).loopGuard
        ⟨3232235529, 3232235781, 1, 7, "e0", "e1"⟩ (1/2) = true := by
  refine ⟨?_, ?_, ?_⟩
  · exact loop_suppression.1 net0 0 st0 p2 rt0 iface1 (by decide) (by decide)
      (by decide) (by decide) (by decide)
  · exact loop_suppression.2.1 net0 (1/2) stGuard p2 "e0" rt0 iface1 (by decide)
      (by decide) (by decide) (by decide) (by decide)
      (by norm_num [sigLive, stGuard, p2, iface1])
  · exact loop_suppression.2.2 net0 0 st0 p2 "e0" rt0 iface1 (by decide)
      (by decide) (by decide) (by decide) (by decide) (by decide) (1/2)
      (by norm_num)

theorem l4c_arp_miss (s : Stats) (u : UpperLayer) :
    (l4Count s u).arp_miss = s.arp_miss := by
  cases u <;>
    simp [l4Count, UpperLayer.isIcmp, UpperLayer.isTcp, UpperLayer.isUdp]

theorem l4c_arp_sent (s : Stats) (u : UpperLayer) :
    (l4Count s u).arp_sent = s.arp_sent := by
  cases u <;>
    simp [l4Count, UpperLayer.isIcmp, UpperLayer.isTcp, UpperLayer.isUdp]

/-- C10. The loop-guard mark happens before ARP resolution: (A) a
packet that passes the guard stage but then fails resolution is dropped
`arp_unresolved`, and its signature is nevertheless live in the guard
for the next second; (B) a packet whose signature is already live is
dropped `loop_suppressed` with the ARP cache and both resolution
counters untouched — no new resolution attempt is made for it. -/
theorem guard_marks_before_resolution :
    (∀ (net : String → ℕ → Option ℕ) (now : ℚ) (st : RouterState)
        (p : Packet) (inIf : String) (rt : RouteEntry) (oif : IfaceInfo)
        (c2 : List ArpEntry) (b2 : Bool),
        1 < p.ttl → lookup st.routes p.dst = some rt →
        findIface st.ifaces rt.interface = some oif → oif.enabled = true →
        ¬(st.settings.split_horizon = true ∧ inIf = oif.name) →
        sigLive st.loopGuard ⟨p.src, p.dst, p.proto, p.id, inIf, oif.name⟩ now
          = false →
        arpResolve net now st.arpCache oif
            (if rt.next_hop ≠ 0 then rt.next_hop else (rebuildIP p).dst)
          = (none, c2, b2) →
        (forward net now st (.ip p) inIf).2 = .dropped .arp_unresolved none
        ∧ ∀ t2 : ℚ, t2 < now + 1 →
            sigLive ((forward net now st (.ip p) inIf).1).loopGuard
              ⟨p.src, p.dst, p.proto, p.id, inIf, oif.name⟩ t2 = true)
    ∧ (∀ (net : String → ℕ → Option ℕ) (now : ℚ) (st : RouterState)
        (p : Packet) (inIf : String) (rt : RouteEntry) (oif : IfaceInfo),
        1 < p.ttl → lookup st.routes p.dst = some rt →
        findIface st.ifaces rt.interface = some oif → oif.enabled = true →
        ¬(st.settings.split_horizon = true ∧ inIf = oif.name) →
        sigLive st.loopGuard ⟨p.src, p.dst, p.proto, p.id, inIf, oif.name⟩ now
          = true →
        (forward net now st (.ip p) inIf).2 = .dropped .loop_suppressed none
        ∧ ((forward net now st (.ip p) inIf).1).arpCache = st.arpCache
        ∧ ((forward net now st (.ip p) inIf).1).stats.arp_miss
            = st.stats.arp_miss
        ∧ ((forward net now st (.ip p) inIf).1).stats.arp_sent
            = st.stats.arp_sent) := by
  constructor
  · intro net now st p inIf rt oif c2 b2 httl hlk hfi hen hns hsig harp
    constructor
    · simp only [ne_eq, ite_not] at harp
      simp only [forward]
      rw [if_neg (by omega)]
      simp [hlk, hfi, hen, hsig, hns, harp]
    · intro t2 ht2
      rw [forward_guard_marks net now st p inIf rt oif httl hlk hfi hen hns
        hsig]
      exact sigLive_guardInsert _ _ now t2 ht2
  · intro net now st p inIf rt oif httl hlk hfi hen hns hsig
    refine ⟨?_, ?_, ?_, ?_⟩ <;>
      (simp only [forward]
       rw [if_neg (by omega)]
       simp [hlk, hfi, hen, hsig, hns, l4c_arp_miss, l4c_arp_sent])

/-- Instantiation: with no ARP answer, the concrete `p2` is dropped
`arp_unresolved` but its signature is live at once; the identical packet
against a state already holding the signature is dropped
`loop_suppressed` with cache and resolution counters untouched. -/
theorem guard_marks_before_resolution_witness :
    (forward netNone 0 st0 (.ip p2) "e0").2 = .dropped .arp_unresolved none
    ∧ sigLive ((forward netNone 0 st0 (.ip p2) "e0").1).loopGuard
        ⟨3232235529, 3232235781, 1, 7, "e0", "e1"⟩ 0 = true
    ∧ (forward netNone 0 stGuard (.ip p2) "e0").2
        = .dropped .loop_suppressed none
    ∧ ((forward netNone 0 stGuard (.ip p2) "e0").1).arpCache
        = stGuard.arpCache
    ∧ ((forward netNone 0 stGuard (.ip p2) "e0").1).stats.arp_miss
        = stGuard.stats.arp_miss := by
  have hA := guard_marks_before_resolution.1 netNone 0 st0 p2 "e0" rt0 iface1
    [] true (by decide) (by decide) (by decide) (by decide) (by decide)
    (by decide) (by decide)
  have hB := guard_marks_before_resolution.2 netNone 0 stGuard p2 "e0" rt0
    iface1 (by decide) (by decide) (by decide) (by decide) (by decide)
    (by norm_num [sigLive, stGuard, p2, iface1])
  exact ⟨hA.1, hA.2 0 (by norm_num), hB.1, hB.2.1, hB.2.2.1⟩

/-! ## ICMP Time-Exceeded -/

/-- C9. On a TTL-expired drop with the ICMP policy enabled, the engine
looks up a route to the original packet's source and resolves the
corresponding next hop; only if both succeed does it emit a
Time-Exceeded message — type 11, code 0, sourced from the chosen egress
interface's own address, carrying the first 28 bytes of the original
(pre-decrement) packet, on that egress interface.  Failing route
lookup, missing egress interface, disabled egress interface, or failed
resolution all emit nothing (the function is total: no error is
raised). -/
theorem icmp_time_exceeded :
    (∀ (net : String → ℕ → Option ℕ) (now : ℚ) (st : RouterState)
        (p : Packet) (inIf : String) (rt : RouteEntry) (oif : IfaceInfo)
        (mac : ℕ) (c2 : List ArpEntry) (b2 : Bool),
        p.ttl ≤ 1 → st.settings.send_icmp_time_exceeded = true →
        lookup st.routes p.src = some rt →
        findIface st.ifaces rt.interface = some oif → oif.enabled = true →
        arpResolve net now st.arpCache oif
            (if rt.next_hop ≠ 0 then rt.next_hop else p.src)
          = (some mac, c2, b2) →
        (forward net now st (.ip p) inIf).2
          = .dropped .ttl_expired
              (some ⟨oif.mac, mac, oif.ip, p.src, 64, 11, 0,
                (wireBytes p).take 28, oif.name⟩))
    ∧ (∀ (net : String → ℕ → Option ℕ) (now : ℚ) (st : RouterState)
        (p : Packet) (inIf : String),
        p.ttl ≤ 1 → st.settings.send_icmp_time_exceeded = true →
        lookup st.routes p.src = none →
        (forward net now st (.ip p) inIf).2 = .dropped .ttl_expired none)
    ∧ (∀ (net : String → ℕ → Option ℕ) (now : ℚ) (st : RouterState)
        (p : Packet) (inIf : String) (rt : RouteEntry),
        p.ttl ≤ 1 → st.settings.send_icmp_time_exceeded = true →
        lookup st.routes p.src = some rt →
        findIface st.ifaces rt.interface = none →
        (forward net now st (.ip p) inIf).2 = .dropped .ttl_expired none)
    ∧ (∀ (net : String → ℕ → Option ℕ) (now : ℚ) (st : RouterState)
        (p : Packet) (inIf : String) (rt : RouteEntry) (oif : IfaceInfo),
        p.ttl ≤ 1 → st.settings.send_icmp_time_exceeded = true →
        lookup st.routes p.src = some rt →
        findIface st.ifaces rt.interface = some oif → oif.enabled = false →
        (forward net now st (.ip p) inIf).2 = .dropped .ttl_expired none)
    ∧ (∀ (net : String → ℕ → Option ℕ) (now : ℚ) (st : RouterState)
        (p : Packet) (inIf : String) (rt : RouteEntry) (oif : IfaceInfo)
        (c2 : List ArpEntry) (b2 : Bool),
        p.ttl ≤ 1 → st.settings.send_icmp_time_exceeded = true →
        lookup st.routes p.src = some rt →
        findIface st.ifaces rt.interface = some oif → oif.enabled = true →
        arpResolve net now st.arpCache oif
            (if rt.next_hop ≠ 0 then rt.next_hop else p.src)
          = (none, c2, b2) →
        (forward net now st (.ip p) inIf).2 = .dropped .ttl_expired none) := by
  refine ⟨?_, ?_, ?_, ?_, ?_⟩
  · intro net now st p inIf rt oif mac c2 b2 httl hset hlk hfi hen harp
    simp only [ne_eq, ite_not] at harp
    simp only [forward, if_pos httl]
    simp [hset, sendIcmpTimeExceeded, hlk, hfi, hen, harp]
  · intro net now st p inIf httl hset hlk
    simp only [forward, if_pos httl]
    simp [hset, sendIcmpTimeExceeded, hlk]
  · intro net now st p inIf rt httl hset hlk hfi
    simp only [forward, if_pos httl]
    simp [hset, sendIcmpTimeExceeded, hlk, hfi]
  · intro net now st p inIf rt oif httl hset hlk hfi hen
    simp only [forward, if_pos httl]
    simp [hset, sendIcmpTimeExceeded, hlk, hfi, hen]
  · intro net now st p inIf rt oif c2 b2 httl hset hlk hfi hen harp
    simp only [ne_eq, ite_not] at harp
    simp only [forward, if_pos httl]
    simp [hset, sendIcmpTimeExceeded, hlk, hfi, hen, harp]

/-- Instantiation: the concrete TTL-1 packet triggers a Time-Exceeded
11/0 from "e0"'s own address with the first 28 original bytes as
payload; with no route back (`st0` cannot reach `p1.src`) nothing goes
out. -/
theorem icmp_time_exceeded_witness :
    (forward netB 0 stIcmp (.ip p1) "e1").2
      = .dropped .ttl_expired
          (some ⟨1111, 888, 3232235521, 3232235529, 64, 11, 0,
            (wireBytes p1).take 28, "e0"⟩)
    ∧ (forward netB 0 st0 (.ip p1) "e1").2 = .dropped .ttl_expired none :=
  ⟨icmp_time_exceeded.1 netB 0 stIcmp p1 "e1" rtBack iface0 888
      (arpInsert [] 3232235529 888 0) true (by decide) (by decide) (by decide)
      (by decide) (by decide) (by decide),
   icmp_time_exceeded.2.1 netB 0 st0 p1 "e1" (by decide) (by decide)
     (by decide)⟩
